import Mathlib

/-!
Shallow embedding of the Pulse telemetry pipeline (nextchamp-saqib/pulse)
and proofs about its behaviour.

The embedding follows the Python sources:
  * `src/pulse/processor.py`      — `EventProcessor` (drain cycle)
  * `src/pulse/storage.py`        — `store_batch_in_duckdb`, `_transaction`
  * `src/pulse/pulse/doctype/redis_stream/redis_stream.py` — `RedisStream`
  * `src/pulse/api/__init__.py`   — `check_auth`, `ingest`
  * `src/pulse/utils/__init__.py` — `get_etl_batch`
  * `src/pulse/pulse/doctype/warehouse_sync_log/warehouse_sync_log.py`
    and `data_sync.py`            — checkpointed warehouse drain loop

Python dictionaries whose values are redis field strings are modelled as
association lists `List (String × String)`; `dict.get` is `lookup` and
Python truthiness of an optional string (`None` or `""` are falsy) is
`falsyStr`.  Exceptions are modelled with `Except`: a function that can
raise returns `Except ε α` and a `try/except` block is a `match` on that
result.  External effects that may fail (redis commands, the DuckDB
insert) are supplied as oracle parameters, so a theorem quantifying over
the oracle covers both the success and the failure behaviour of the
corresponding call site.
-/

namespace Pulse

/-- Dictionary lookup, `d.get(k)` on a Python dict modelled as an
association list (first binding wins, as in a dict there is at most
one). -/
def lookup (d : List (String × String)) (k : String) : Option String :=
  (d.find? (fun kv => kv.1 = k)).map (fun kv => kv.2)

/-- Python truthiness of an optional string: `None` and `""` are falsy,
every other string is truthy. -/
def falsyStr : Option String → Bool
  | Option.none => true
  | some s => s = ""

/-! ## Event processor (`src/pulse/processor.py`)

A raw entry as returned by `RedisStream.read` is a dict
`\x7b"id": str, "data": ...\x7d`.  `data` is normally a string-to-string
mapping; when the decoded payload is not a mapping, `data.get(...)`
inside `_prepare_event` raises, which the embedding represents by
`data = Option.none`. -/

/-- Raw entry delivered by the stream: `id` plus a decoded `data`
payload, `Option.none` standing for a payload that is not a mapping. -/
structure RawEvent where
  id : String
  data : Option (List (String × String))
deriving Repr, DecidableEq

/-- Result of `EventProcessor._prepare_event`: the `_event` dict built
from the raw entry (fixed columns plus the overflow `data` map). -/
structure PreparedEvent where
  id : String
  site : Option String
  name : Option String
  app : Option String
  app_version : Option String
  frappe_version : Option String
  created_at : Option String
  data : List (String × String)
deriving Repr, DecidableEq

/-- Keys excluded from the overflow `data` map in
`EventProcessor._prepare_event` (the literal list in the dict
comprehension; note it contains `created_at` but not `timestamp`). -/
def overflowExcludedKeys : List String :=
  ["site", "name", "app", "app_version", "frappe_version", "created_at"]

/-- Embedding of `EventProcessor._prepare_event`.  Returns
`Except.error ()` when the payload is not a mapping (the `data.get`
attribute error), `Except.ok Option.none` when the event is skipped
(`site` or `name` falsy), and `Except.ok (some e)` otherwise. -/
def prepare_event (ev : RawEvent) : Except Unit (Option PreparedEvent) :=
  match ev.data with
  | Option.none => Except.error ()
  | some data =>
    let e : PreparedEvent :=
      { id := ev.id
        site := lookup data "site"
        name := lookup data "name"
        app := lookup data "app"
        app_version := lookup data "app_version"
        frappe_version := lookup data "frappe_version"
        created_at := lookup data "timestamp"
        data := data.filter (fun kv => !(overflowExcludedKeys.contains kv.1)) }
    if falsyStr e.site || falsyStr e.name then Except.ok Option.none
    else Except.ok (some e)

/-- Embedding of `EventProcessor._build_batch`: classify each event into
the accepted batch (with its id in `batch_ids`), `skipped_ids`
(preparation returned `None`) or `failed_ids` (preparation raised).
The recursion prepends each contribution, matching the append order of
the Python loop.  Result: `(batch, batch_ids, skipped_ids, failed_ids)`. -/
def build_batch :
    List RawEvent → List PreparedEvent × List String × List String × List String
  | [] => ([], [], [], [])
  | ev :: rest =>
    let r := build_batch rest
    match prepare_event ev with
    | Except.error _ => (r.1, r.2.1, r.2.2.1, ev.id :: r.2.2.2)
    | Except.ok Option.none => (r.1, r.2.1, ev.id :: r.2.2.1, r.2.2.2)
    | Except.ok (some e) => (e :: r.1, ev.id :: r.2.1, r.2.2.1, r.2.2.2)

/-- Embedding of `EventProcessor._store_batch`.  The DuckDB write is an
external effect; `storeOk` tells whether `store_batch_in_duckdb` would
succeed on this batch.  On an empty batch nothing is attempted; on
success all `batch_ids` become processed; on failure the error is
caught, logged, and all `batch_ids` become failed.  Result:
`(processed_ids, failed_ids)`. -/
def processor_store_batch (storeOk : Bool) (batch : List PreparedEvent)
    (batch_ids : List String) : List String × List String :=
  if batch.isEmpty then ([], [])
  else if storeOk then (batch_ids, []) else ([], batch_ids)

/-- Body of the `try` block of `EventProcessor.process`.  `readRes` is
the outcome of `self.stream.read(READ_COUNT)` (`Except.error` when the
read raises out of the stream shim).  Returns the value of the `return`
statement paired with the list of ids passed to
`self.stream.ack_entries` (empty when no ack call is made; `ack_entries`
itself swallows transport errors, so it never raises back into
`process`). -/
def process_body (readRes : Except Unit (List RawEvent)) (storeOk : Bool) :
    Except Unit (Nat × List String) := do
  let events ← readRes
  if events.isEmpty then return (0, [])
  let r := build_batch events
  let sr := processor_store_batch storeOk r.1 r.2.1
  let processed_ids := sr.1 ++ r.2.2.1
  return (processed_ids.length, processed_ids)

/-- Embedding of `EventProcessor.process`: the `try/except` wrapper that
turns any exception from the body into a `return 0` (with no ack call
made after the failure point). -/
def process (readRes : Except Unit (List RawEvent)) (storeOk : Bool) :
    Nat × List String :=
  match process_body readRes storeOk with
  | Except.ok r => r
  | Except.error _ => (0, [])

/-! ## Stream shim (`src/pulse/pulse/doctype/redis_stream/redis_stream.py`)

`read_pending` / `read_stale` / `read_new` each issue one redis command
whose outcome the embedding takes as an oracle
`Nat → Except Unit (List RawEvent)` from the requested count to either
the delivered entries or a raised transport error.  (`read_stale` calls
`xautoclaim` outside its `suppress` block, and the two `xreadgroup`
calls have no handler of their own, so in all three phases a transport
error propagates into `read`.) -/

/-- Embedding of `RedisStream.read`: the three phases run inside one
`try` block, each next phase asked only for the remaining
`count - len(entries)`; an exception anywhere in the block is caught by
the single `except`, which keeps the entries accumulated so far. -/
def stream_read (pending stale new_phase : Nat → Except Unit (List RawEvent))
    (count : Nat) : List RawEvent :=
  match pending count with
  | Except.error _ => []
  | Except.ok e1 =>
    if e1.length < count then
      match stale (count - e1.length) with
      | Except.error _ => e1
      | Except.ok e2 =>
        if (e1 ++ e2).length < count then
          match new_phase (count - (e1 ++ e2).length) with
          | Except.error _ => e1 ++ e2
          | Except.ok e3 => e1 ++ e2 ++ e3
        else e1 ++ e2
    else e1

/-- Values a Python caller can put into the fields dict passed to
`RedisStream.add`: a string, a number, or `None`. -/
inductive PyScalar where
  | str (s : String)
  | int (n : Int)
  | none_
deriving Repr, DecidableEq

/-- Frappe `cstr`: coerce a value to a string (never applied to `None`
by `serialize`, which filters it out first). -/
def cstr : PyScalar → String
  | PyScalar.str s => s
  | PyScalar.int n => toString n
  | PyScalar.none_ => "None"

/-- Embedding of `RedisStream.serialize`: drop keys whose value is
`None`, stringify every remaining value. -/
def stream_serialize (data : List (String × PyScalar)) : List (String × String) :=
  data.filterMap (fun kv =>
    match kv.2 with
    | PyScalar.none_ => Option.none
    | v => some (kv.1, cstr v))

/-- Default `STREAM_MAX_LENGTH` from `src/pulse/constants.py`. -/
def STREAM_MAX_LENGTH : Nat := 100000

/-- Arguments of the `xadd` call issued by `RedisStream.add`. -/
structure XAddCall where
  key : String
  fields : List (String × String)
  maxlen : Nat
  approximate : Bool
deriving Repr, DecidableEq

/-- Embedding of `RedisStream.add`: serialize the fields, resolve the
cap from the `max_stream_length` setting (falsy, i.e. unset or zero,
falls back to `STREAM_MAX_LENGTH`) and issue `xadd` with approximate
trimming.  `settingMaxLen` is the `Pulse Settings.max_stream_length`
value. -/
def stream_add (settingMaxLen : Option Nat) (key : String)
    (data : List (String × PyScalar)) : XAddCall :=
  { key := key
    fields := stream_serialize data
    maxlen :=
      match settingMaxLen with
      | some m => if m = 0 then STREAM_MAX_LENGTH else m
      | Option.none => STREAM_MAX_LENGTH
    approximate := true }

/-! ## Hot store (`src/pulse/storage.py`) -/

/-- Errors out of `store_batch_in_duckdb`: a `KeyError` while building
the row tuples (a required key missing from an input dict) or a
`duckdb.Error` from the insert itself. -/
inductive StorageErr where
  | keyError
  | duckdbError
deriving Repr, DecidableEq

/-- Row of the `event` table, in the column order of the INSERT. -/
structure EventRow where
  event_id : String
  site_name : String
  event_name : String
  app_name : String
  app_version : String
  timestamp : String
  additional_data : String
deriving Repr, DecidableEq

/-- Required-key access `data[k]` on an input dict: `KeyError` when the
key is absent. -/
def reqKey (d : List (String × String)) (k : String) : Except StorageErr String :=
  match lookup d k with
  | some v => Except.ok v
  | Option.none => Except.error StorageErr.keyError

/-- Row tuple built for one element of `log_data_list` (the list
comprehension in `store_batch_in_duckdb`); `additional_data` uses
`.get` with an empty-object default, serialized by the caller side of
the embedding. -/
def build_row (d : List (String × String)) : Except StorageErr EventRow := do
  let event_id ← reqKey d "event_id"
  let site_name ← reqKey d "site_name"
  let event_name ← reqKey d "event_name"
  let app_name ← reqKey d "app_name"
  let app_version ← reqKey d "app_version"
  let timestamp ← reqKey d "timestamp"
  return { event_id, site_name, event_name, app_name, app_version, timestamp,
           additional_data := (lookup d "additional_data").getD "\x7b\x7d" }

/-- Embedding of the `_transaction` context manager: run the body after
`BEGIN`; on success `COMMIT` keeps the new table state, on error
`ROLLBACK` restores the state from before `BEGIN` and the exception is
re-raised. -/
def duck_transaction (table : List EventRow)
    (body : List EventRow → Except StorageErr (List EventRow)) :
    Except StorageErr Unit × List EventRow :=
  match body table with
  | Except.ok t => (Except.ok (), t)
  | Except.error e => (Except.error e, table)

/-- Embedding of `store_batch_in_duckdb`.  `insertOk` is the oracle for
the `executemany` insert (false means DuckDB raises).  The row tuples
are built first (a `KeyError` there propagates before any transaction
starts); an empty row list returns without touching the table; else the
insert runs inside `_transaction`.  Returns the raised-or-ok outcome
paired with the final `event` table. -/
def store_batch_in_duckdb (insertOk : Bool) (table : List EventRow)
    (log_data_list : List (List (String × String))) :
    Except StorageErr Unit × List EventRow :=
  match log_data_list.mapM build_row with
  | Except.error e => (Except.error e, table)
  | Except.ok rows =>
    if rows.isEmpty then (Except.ok (), table)
    else
      duck_transaction table (fun t =>
        if insertOk then Except.ok (t ++ rows) else Except.error StorageErr.duckdbError)

/-! ## Ingest authentication (`src/pulse/api/__init__.py`) -/

/-- Outcome of `check_auth`: pass, or one of the three
`frappe.PermissionError` throws. -/
inductive AuthResult where
  | ok
  | notConfigured
  | headerMissing
  | invalidKey
deriving Repr, DecidableEq

/-- Embedding of `check_auth`.  `api_key` is the stored
`Pulse Settings.api_key` password (`Option.none` when unset); `headers`
are the request headers.  The only header consulted is
`X-Pulse-API-Key`; a falsy stored key, a falsy request header, or a
mismatch each throw `PermissionError`. -/
def check_auth (api_key : Option String) (headers : List (String × String)) :
    AuthResult :=
  if falsyStr api_key then AuthResult.notConfigured
  else
    let req := lookup headers "X-Pulse-API-Key"
    if falsyStr req then AuthResult.headerMissing
    else if req = api_key then AuthResult.ok
    else AuthResult.invalidKey

/-- Embedding of the control flow of `ingest` that matters for
appending: `check_auth()` runs before the `Pulse Event` document is
built and `db_insert` (the stream append) is attempted, so a failed
auth raises out of `ingest` with no append.  Returns the number of
append calls made (`appendOk` is the outcome oracle for `db_insert`,
whose exception is logged and re-raised). -/
def ingest (api_key : Option String) (headers : List (String × String))
    (appendOk : Bool) : Except AuthResult Nat :=
  match check_auth api_key headers with
  | AuthResult.ok => if appendOk then Except.ok 1 else Except.error AuthResult.ok
  | r => Except.error r

/-! ## Warehouse sync
(`src/pulse/utils/__init__.py`, `warehouse_sync_log.py`, `data_sync.py`)

Source rows carry the `primary_key` column (`name`) and the
`creation_key` column (`creation`); the remaining columns play no role
in the drain loop and are represented by an opaque payload.  The
checkpoint is a `creation` value or `Option.none`; the stored
checkpoint is a timestamp string whose only falsy values coincide with
being unset, so the Python guard `if checkpoint:` is modelled by
matching on the option. -/

/-- Source row as fetched by `get_etl_batch`. -/
structure SrcRow where
  pk : String
  creation : Nat
  payload : String
deriving Repr, DecidableEq

/-- Row order used by `get_etl_batch` (`ORDER BY creation, name`). -/
def rowLE (a b : SrcRow) : Bool :=
  a.creation < b.creation || (a.creation = b.creation && a.pk ≤ b.pk)

/-- Embedding of the non-virtual (row-store) branch of
`pulse.utils.get_etl_batch`: filter `creation > checkpoint` when a
checkpoint is set, order by `(creation, name)` ascending, limit
`batch_size`.  The virtual-doctype branch of the same function (lines
59-66 of `utils/__init__.py`) delegates to the controller and is
embedded as `get_etl_batch_virtual`; `get_etl_batch_dispatch` mirrors
the dispatch between the two. -/
def get_etl_batch (source : List SrcRow) (checkpoint : Option Nat)
    (batch_size : Nat) : List SrcRow :=
  let filtered : List SrcRow :=
    match checkpoint with
    | some c => source.filter (fun r => c < r.creation)
    | Option.none => source
  (filtered.mergeSort rowLE).take batch_size

/-- Embedding of the virtual-doctype branch of
`pulse.utils.get_etl_batch`: for the stream-backed `Pulse Event`
source, `PulseEvent.get_etl_batch` fetches
`stream.get_entries(min_id=checkpoint, count=batch_size, order="asc")`
— an XRANGE whose `min` bound is INCLUSIVE (`min_id or "-"` when
unset).  The `Warehouse Sync` config created for `Pulse Event` uses
the entry id as both `creation_key` and `primary_key`, so a row's
`creation` field carries the entry-id cursor; the stream itself holds
entries in ascending entry-id order and XRANGE preserves that order,
so no sort is applied. -/
def get_etl_batch_virtual (stream : List SrcRow) (checkpoint : Option Nat)
    (batch_size : Nat) : List SrcRow :=
  let filtered : List SrcRow :=
    match checkpoint with
    | some c => stream.filter (fun r => c ≤ r.creation)
    | Option.none => stream
  filtered.take batch_size

/-- Embedding of the dispatch at the top of `pulse.utils.get_etl_batch`:
a virtual reference doctype delegates to the controller's
`get_etl_batch` (the inclusive stream fetch), any other doctype uses
the row-store query. -/
def get_etl_batch_dispatch (is_virtual : Bool) (source : List SrcRow)
    (checkpoint : Option Nat) (batch_size : Nat) : List SrcRow :=
  if is_virtual then get_etl_batch_virtual source checkpoint batch_size
  else get_etl_batch source checkpoint batch_size

/-- Membership of a primary key in the warehouse target table (the
anti-join predicate `source.pk == target.pk`). -/
def pk_in_target (target : List SrcRow) (p : String) : Bool :=
  target.any (fun r => r.pk = p)

/-- Maximum of the `creation` column of a batch
(`df[creation_key].max()`; only evaluated on non-empty batches). -/
def maxCreation (batch : List SrcRow) : Nat :=
  batch.foldl (fun m r => max m r.creation) 0

/-- State threaded through one sync run: the warehouse table, the job
checkpoint, and the run counter `total_inserted`. -/
structure SyncState where
  target : List SrcRow
  checkpoint : Option Nat
  total_inserted : Nat
deriving Repr, DecidableEq

/-- Embedding of `WarehouseSyncLog._insert_batch` (identically
`DataSync.insert_batch`): anti-join the batch against the target on the
primary key, append the surviving rows, then advance the checkpoint to
the batch maximum of the creation key and add the insert count to
`total_inserted`. -/
def insert_batch (s : SyncState) (batch : List SrcRow) : SyncState :=
  let diff := batch.filter (fun r => !(pk_in_target s.target r.pk))
  { target := s.target ++ diff
    checkpoint := some (maxCreation batch)
    total_inserted := s.total_inserted + diff.length }

/-- Embedding of the drain loop in `WarehouseSyncLog.sync` (the
`while True` body, identical in `DataSync.sync`): fetch a batch after
the current checkpoint, stop on an empty batch, insert it, and stop
after a short batch.  `fuel` bounds the number of iterations of the
unbounded Python loop; every theorem below holds for every fuel. -/
def sync_loop (source : List SrcRow) (batch_size : Nat) :
    Nat → SyncState → SyncState
  | 0, s => s
  | fuel + 1, s =>
    let batch := get_etl_batch source s.checkpoint batch_size
    if batch.isEmpty then s
    else
      let s1 := insert_batch s batch
      if batch.length < batch_size then s1
      else sync_loop source batch_size fuel s1

/-- One full run of the drain loop starting from the job checkpoint and
the current warehouse table, with `total_inserted` reset to 0 as in
`WarehouseSyncLog.before_insert`. -/
def run_sync (source : List SrcRow) (batch_size fuel : Nat)
    (checkpoint : Option Nat) (target : List SrcRow) : SyncState :=
  sync_loop source batch_size fuel
    { target := target, checkpoint := checkpoint, total_inserted := 0 }

/-- The same drain loop driven by the virtual-doctype branch of
`get_etl_batch` (the inclusive stream-backed fetch used when the
reference doctype is `Pulse Event`). -/
def sync_loop_virtual (source : List SrcRow) (batch_size : Nat) :
    Nat → SyncState → SyncState
  | 0, s => s
  | fuel + 1, s =>
    let batch := get_etl_batch_virtual source s.checkpoint batch_size
    if batch.isEmpty then s
    else
      let s1 := insert_batch s batch
      if batch.length < batch_size then s1
      else sync_loop_virtual source batch_size fuel s1

/-! ## Helper lemmas -/

/-- Python truthiness on an optional string, unfolded. -/
theorem falsyStr_iff (o : Option String) :
    falsyStr o = true ↔ o = Option.none ∨ o = some "" := by
  cases o with
  | none => simp [falsyStr]
  | some s =>
    simp only [falsyStr, decide_eq_true_eq]
    constructor
    · intro h; exact Or.inr (by rw [h])
    · rintro (h | h)
      · exact absurd h (by simp)
      · injection h

/-! ## Claims about the event processor -/

/-- Claim C2, counterexample.  The claim says a raw entry is discarded
when `timestamp` is missing or empty; this entry has an empty
`timestamp` yet `_prepare_event` accepts it (only `site` and `name` are
checked), and its overflow `data` map retains the `timestamp` key
(which the claim assigns to the fixed columns). -/
theorem c2_counterexample :
    prepare_event
        { id := "1-2",
          data := some [("site", "s1"), ("name", "login"), ("timestamp", "")] } =
      Except.ok (some
        { id := "1-2", site := some "s1", name := some "login",
          app := Option.none, app_version := Option.none,
          frappe_version := Option.none, created_at := some "",
          data := [("timestamp", "")] }) := by
  rfl

/-- Claim C2 (amended): during sanitize, an entry whose payload is a
mapping is skipped if and only if `site` or `name` is missing or empty
(`id` and `timestamp` are not checked); an accepted entry is split into
the fixed columns, with `created_at` taken from the `timestamp` key,
and an overflow `data` map holding exactly the pairs whose key is not
among `site, name, app, app_version, frappe_version, created_at` (so a
`timestamp` pair is retained in the overflow map). -/
theorem c2_sanitize_characterization (ev : RawEvent)
    (data : List (String × String)) (hd : ev.data = some data) :
    (prepare_event ev = Except.ok Option.none ↔
      (lookup data "site" = Option.none ∨ lookup data "site" = some "" ∨
       lookup data "name" = Option.none ∨ lookup data "name" = some "")) ∧
    (∀ e, prepare_event ev = Except.ok (some e) →
      e.id = ev.id ∧ e.site = lookup data "site" ∧ e.name = lookup data "name" ∧
      e.app = lookup data "app" ∧ e.app_version = lookup data "app_version" ∧
      e.frappe_version = lookup data "frappe_version" ∧
      e.created_at = lookup data "timestamp" ∧
      (∀ kv, kv ∈ e.data ↔ kv ∈ data ∧ kv.1 ∉ overflowExcludedKeys)) := by
  have hcond : (falsyStr (lookup data "site") || falsyStr (lookup data "name")) = true ↔
      (lookup data "site" = Option.none ∨ lookup data "site" = some "" ∨
       lookup data "name" = Option.none ∨ lookup data "name" = some "") := by
    rw [Bool.or_eq_true, falsyStr_iff, falsyStr_iff]
    tauto
  constructor
  · rw [← hcond]
    unfold prepare_event
    rw [hd]
    by_cases h : (falsyStr (lookup data "site") || falsyStr (lookup data "name")) = true
    · simp [h]
    · simp [h]
  · intro e he
    unfold prepare_event at he
    rw [hd] at he
    by_cases h : (falsyStr (lookup data "site") || falsyStr (lookup data "name")) = true
    · simp [h] at he
    · simp [h] at he
      subst he
      refine ⟨rfl, rfl, rfl, rfl, rfl, rfl, rfl, ?_⟩
      intro kv
      simp [List.mem_filter]

/-- Claim C2 witness: the characterization applied to a concrete
accepted entry. -/
theorem c2_sanitize_witness :
    (prepare_event { id := "1-1", data := some [("site", "s1"), ("name", "login")] } =
        Except.ok Option.none ↔
      (lookup [("site", "s1"), ("name", "login")] "site" = Option.none ∨
       lookup [("site", "s1"), ("name", "login")] "site" = some "" ∨
       lookup [("site", "s1"), ("name", "login")] "name" = Option.none ∨
       lookup [("site", "s1"), ("name", "login")] "name" = some "")) := by
  exact (c2_sanitize_characterization
    { id := "1-1", data := some [("site", "s1"), ("name", "login")] }
    [("site", "s1"), ("name", "login")] rfl).1

/-- Claim C10: batch preparation sends the id of every read event to
exactly one of `batch_ids`, `skipped_ids`, `failed_ids` — their
concatenation is a permutation of the ids of the read events — and
whenever the read ids are pairwise distinct (stream entry ids are
unique) the three lists are pairwise disjoint. -/
theorem c10_build_batch_partition (events : List RawEvent) :
    ((build_batch events).2.1 ++ (build_batch events).2.2.1 ++
        (build_batch events).2.2.2).Perm (events.map RawEvent.id) ∧
    ((events.map RawEvent.id).Nodup →
      (build_batch events).2.1.Disjoint (build_batch events).2.2.1 ∧
      (build_batch events).2.1.Disjoint (build_batch events).2.2.2 ∧
      (build_batch events).2.2.1.Disjoint (build_batch events).2.2.2) := by
  have hperm : ∀ evs : List RawEvent,
      ((build_batch evs).2.1 ++ (build_batch evs).2.2.1 ++
        (build_batch evs).2.2.2).Perm (evs.map RawEvent.id) := by
    intro evs
    induction evs with
    | nil => simp [build_batch]
    | cons ev rest ih =>
      unfold build_batch
      cases hp : prepare_event ev with
      | error e =>
        simp only [List.map_cons]
        refine List.Perm.trans ?_ (ih.cons ev.id)
        have := @List.perm_middle String ev.id
          ((build_batch rest).2.1 ++ (build_batch rest).2.2.1)
          ((build_batch rest).2.2.2)
        simpa [List.append_assoc] using this
      | ok o =>
        cases o with
        | none =>
          simp only [List.map_cons]
          refine List.Perm.trans ?_ (ih.cons ev.id)
          simp only [List.append_assoc, List.cons_append]
          exact List.perm_middle
        | some e =>
          simp only [List.map_cons]
          exact List.Perm.cons ev.id ih
  refine ⟨hperm events, ?_⟩
  intro hnd
  have hnodup : ((build_batch events).2.1 ++ (build_batch events).2.2.1 ++
      (build_batch events).2.2.2).Nodup := ((hperm events).nodup_iff).mpr hnd
  rw [List.append_assoc, List.nodup_append] at hnodup
  obtain ⟨h1, h23, hdisj⟩ := hnodup
  rw [List.nodup_append] at h23
  refine ⟨?_, ?_, h23.2.2⟩
  · intro a ha hb
    exact hdisj ha (List.mem_append_left _ hb)
  · intro a ha hb
    exact hdisj ha (List.mem_append_right _ hb)

/-- Claim C10 witness: a concrete two-event read with distinct ids is
partitioned into disjoint lists. -/
theorem c10_build_batch_partition_witness :
    (build_batch
        [{ id := "1-1", data := some [("site", "s1"), ("name", "login")] },
         { id := "1-3", data := some [("site", ""), ("name", "x")] }]).2.1.Disjoint
      (build_batch
        [{ id := "1-1", data := some [("site", "s1"), ("name", "login")] },
         { id := "1-3", data := some [("site", ""), ("name", "x")] }]).2.2.1 := by
  exact ((c10_build_batch_partition
    [{ id := "1-1", data := some [("site", "s1"), ("name", "login")] },
     { id := "1-3", data := some [("site", ""), ("name", "x")] }]).2 (by decide)).1

/-- Unfolding of `process` on a successful read: the returned pair is
the length and the content of `processed_ids` (store outcome prepended
to the skipped ids).  The empty-read early return coincides with the
same formula. -/
theorem process_ok_eq (events : List RawEvent) (storeOk : Bool) :
    process (Except.ok events) storeOk =
      (((processor_store_batch storeOk (build_batch events).1
          (build_batch events).2.1).1 ++ (build_batch events).2.2.1).length,
       (processor_store_batch storeOk (build_batch events).1
          (build_batch events).2.1).1 ++ (build_batch events).2.2.1) := by
  cases events with
  | nil => rfl
  | cons e rest => rfl

/-- Claim C7: `process()` never raises — for every read outcome and
every storage outcome it returns a plain count, which always equals
the number of ids it passed to `ack_entries`; when the body raised
(e.g. the read failed) it returns `0` with no ack, and when the read
succeeded it returns the processed count computed from the batch. -/
theorem c7_process_never_raises (readRes : Except Unit (List RawEvent))
    (storeOk : Bool) :
    (process readRes storeOk).1 = (process readRes storeOk).2.length ∧
    (∀ e : Unit, readRes = Except.error e → process readRes storeOk = (0, [])) ∧
    (∀ events, readRes = Except.ok events →
      process readRes storeOk =
        (((processor_store_batch storeOk (build_batch events).1
            (build_batch events).2.1).1 ++ (build_batch events).2.2.1).length,
         (processor_store_batch storeOk (build_batch events).1
            (build_batch events).2.1).1 ++ (build_batch events).2.2.1)) := by
  refine ⟨?_, ?_, ?_⟩
  · cases readRes with
    | error e => rfl
    | ok events => rw [process_ok_eq]
  · intro e he
    subst he
    rfl
  · intro events he
    subst he
    exact process_ok_eq events storeOk

/-- Claim C7 witness: a raising read yields a successful zero return. -/
theorem c7_process_witness : process (Except.error ()) true = (0, []) := by
  exact (c7_process_never_raises (Except.error ()) true).2.1 () rfl

/-- Claim C1, counterexample.  One valid entry is read and the
columnar-store batch write raises (`storeOk = false`): the cycle acks
nothing — the read id `2-1` is not acked, where the claim requires all
read ids to be acked after a dead-letter deposit (the processor has no
dead-letter path at all). -/
theorem c1_counterexample :
    (process (Except.ok
        [{ id := "2-1", data := some [("site", "s1"), ("name", "login")] }])
        false).2 = [] ∧
    [({ id := "2-1", data := some [("site", "s1"), ("name", "login")] } :
        RawEvent)].map RawEvent.id = ["2-1"] := by
  exact ⟨rfl, rfl⟩

/-- Claim C1 (amended): when the columnar-store batch write raises, the
accepted batch is not dead-lettered (no such path exists) and its ids
are not acked — they join `failed_ids` and stay pending for redelivery;
only the skipped ids are acked, the error is caught and the cycle still
returns successfully with the count of acked ids. -/
theorem c1_store_failure_behaviour (events : List RawEvent) :
    (process (Except.ok events) false).2 = (build_batch events).2.2.1 ∧
    (process (Except.ok events) false).1 = (build_batch events).2.2.1.length ∧
    ((build_batch events).1 ≠ [] →
      processor_store_batch false (build_batch events).1 (build_batch events).2.1 =
        ([], (build_batch events).2.1)) := by
  have hstore : processor_store_batch false (build_batch events).1
      (build_batch events).2.1 = ([], if (build_batch events).1.isEmpty then []
        else (build_batch events).2.1) := by
    by_cases hb : (build_batch events).1.isEmpty
    · simp [processor_store_batch, hb]
    · simp [processor_store_batch, hb]
  refine ⟨?_, ?_, ?_⟩
  · rw [process_ok_eq, hstore]
    simp
  · rw [process_ok_eq, hstore]
    simp
  · intro hne
    have hb : (build_batch events).1.isEmpty = false := by
      cases hcase : (build_batch events).1 with
      | nil => exact absurd hcase hne
      | cons x xs => simp [hcase]
    simp [processor_store_batch, hb]

/-- Claim C1 witness: with one accepted and one skipped entry and a
failing store, exactly the skipped id is acked. -/
theorem c1_store_failure_witness :
    processor_store_batch false
      (build_batch
        [{ id := "2-1", data := some [("site", "s1"), ("name", "login")] }]).1
      (build_batch
        [{ id := "2-1", data := some [("site", "s1"), ("name", "login")] }]).2.1 =
      ([], ["2-1"]) := by
  refine (c1_store_failure_behaviour
    [{ id := "2-1", data := some [("site", "s1"), ("name", "login")] }]).2.2 ?_
  decide

/-! ## Claims about the hot store -/

/-- Claim C6: the hot-store batch write is transactional.  Empty input
returns without touching the table; when the row tuples build, the
write either appends exactly those rows (commit) or raises the typed
storage error and leaves the table untouched (rollback); every error
outcome leaves the table unchanged, so each batch is all-or-nothing. -/
theorem c6_store_batch_atomic (insertOk : Bool) (table : List EventRow)
    (input : List (List (String × String))) :
    (input = [] →
      store_batch_in_duckdb insertOk table input = (Except.ok (), table)) ∧
    (∀ rows, input.mapM build_row = Except.ok rows →
      store_batch_in_duckdb insertOk table input =
        (if rows.isEmpty then (Except.ok (), table)
         else if insertOk then (Except.ok (), table ++ rows)
         else (Except.error StorageErr.duckdbError, table))) ∧
    ((store_batch_in_duckdb insertOk table input).2 = table ∨
      ∃ rows, input.mapM build_row = Except.ok rows ∧
        (store_batch_in_duckdb insertOk table input).2 = table ++ rows ∧
        (store_batch_in_duckdb insertOk table input).1 = Except.ok ()) ∧
    (∀ e, (store_batch_in_duckdb insertOk table input).1 = Except.error e →
      (store_batch_in_duckdb insertOk table input).2 = table) := by
  have hmain : ∀ rows, input.mapM build_row = Except.ok rows →
      store_batch_in_duckdb insertOk table input =
        (if rows.isEmpty then (Except.ok (), table)
         else if insertOk then (Except.ok (), table ++ rows)
         else (Except.error StorageErr.duckdbError, table)) := by
    intro rows hrows
    unfold store_batch_in_duckdb
    rw [hrows]
    by_cases he : rows.isEmpty
    · simp [he]
    · by_cases hi : insertOk
      · simp [he, hi, duck_transaction]
      · simp [he, hi, duck_transaction]
  have herrcase : ∀ e2, input.mapM build_row = Except.error e2 →
      store_batch_in_duckdb insertOk table input = (Except.error e2, table) := by
    intro e2 h
    unfold store_batch_in_duckdb
    rw [h]
  have hall : (store_batch_in_duckdb insertOk table input).2 = table ∨
      ∃ rows, input.mapM build_row = Except.ok rows ∧
        (store_batch_in_duckdb insertOk table input).2 = table ++ rows ∧
        (store_batch_in_duckdb insertOk table input).1 = Except.ok () := by
    cases hrows : input.mapM build_row with
    | error e2 =>
      rw [herrcase e2 hrows]
      exact Or.inl rfl
    | ok rows =>
      rw [hmain rows hrows]
      by_cases he : rows.isEmpty
      · simp [he]
      · by_cases hi : insertOk
        · exact Or.inr ⟨rows, rfl, by simp [he, hi], by simp [he, hi]⟩
        · simp [he, hi]
  refine ⟨?_, hmain, hall, ?_⟩
  · intro h
    subst h
    cases insertOk <;> rfl
  · intro e herr
    cases hall with
    | inl h => exact h
    | inr h =>
      obtain ⟨rows, _, _, hok⟩ := h
      rw [hok] at herr
      exact absurd herr (by simp)

/-- Claim C6 witness: a one-row batch with a failing insert raises the
typed error and leaves the table unchanged. -/
theorem c6_store_batch_witness :
    store_batch_in_duckdb false []
        [[("event_id", "1"), ("site_name", "s"), ("event_name", "e"),
          ("app_name", "a"), ("app_version", "v"), ("timestamp", "t")]] =
      (Except.error StorageErr.duckdbError, []) := by
  have h := (c6_store_batch_atomic false []
      [[("event_id", "1"), ("site_name", "s"), ("event_name", "e"),
        ("app_name", "a"), ("app_version", "v"), ("timestamp", "t")]]).2.1
      [{ event_id := "1", site_name := "s", event_name := "e", app_name := "a",
         app_version := "v", timestamp := "t", additional_data := "\x7b\x7d" }]
      (by rfl)
  simpa using h

/-! ## Claims about the stream shim -/

/-- Claim C8, counterexample.  A field with an empty-string value is
kept by `serialize` (only `None` values are dropped), so the stored
entry map contains the empty value the claim says is dropped. -/
theorem c8_counterexample :
    (stream_add Option.none "pulse:events"
        [("a", PyScalar.str ""), ("b", PyScalar.none_)]).fields = [("a", "")] ∧
    ("a", "") ∈ (stream_add Option.none "pulse:events"
        [("a", PyScalar.str ""), ("b", PyScalar.none_)]).fields := by
  exact ⟨rfl, by decide⟩

/-- Claim C8 (amended): the stream append drops exactly the fields
whose value is `None` (empty strings are retained), stringifies every
remaining value, and issues XADD with approximate trimming at the
configured cap (`max_stream_length` when truthy, else the
`STREAM_MAX_LENGTH` default of 100000). -/
theorem c8_add_serialization (settingMaxLen : Option Nat) (key : String)
    (data : List (String × PyScalar)) :
    (stream_add settingMaxLen key data).fields =
      (data.filter (fun kv => kv.2 ≠ PyScalar.none_)).map
        (fun kv => (kv.1, cstr kv.2)) ∧
    (settingMaxLen = Option.none ∨ settingMaxLen = some 0 →
      (stream_add settingMaxLen key data).maxlen = STREAM_MAX_LENGTH) ∧
    (∀ m, settingMaxLen = some m → m ≠ 0 →
      (stream_add settingMaxLen key data).maxlen = m) ∧
    (stream_add settingMaxLen key data).approximate = true := by
  refine ⟨?_, ?_, ?_, rfl⟩
  · show stream_serialize data = _
    induction data with
    | nil => rfl
    | cons kv rest ih =>
      obtain ⟨k, v⟩ := kv
      cases v with
      | str s =>
        have step : stream_serialize ((k, PyScalar.str s) :: rest) =
            (k, cstr (PyScalar.str s)) :: stream_serialize rest := rfl
        rw [step, ih]
        simp [List.filter_cons]
      | int n =>
        have step : stream_serialize ((k, PyScalar.int n) :: rest) =
            (k, cstr (PyScalar.int n)) :: stream_serialize rest := rfl
        rw [step, ih]
        simp [List.filter_cons]
      | none_ =>
        have step : stream_serialize ((k, PyScalar.none_) :: rest) =
            stream_serialize rest := rfl
        rw [step, ih]
        simp [List.filter_cons]
  · rintro (h | h) <;> subst h <;> rfl
  · intro m hm hne
    subst hm
    simp [stream_add, hne]

/-- Claim C8 witness: a mixed field dict serialized through `add`. -/
theorem c8_add_serialization_witness :
    (stream_add (some 500) "pulse:events"
        [("a", PyScalar.str "x"), ("b", PyScalar.none_)]).maxlen = 500 := by
  exact (c8_add_serialization (some 500) "pulse:events"
    [("a", PyScalar.str "x"), ("b", PyScalar.none_)]).2.2.1 500 rfl (by decide)

/-! ## Claims about ingest authentication -/

/-- Claim C9, code bug.  `check_auth` consults only the
`X-Pulse-API-Key` header: a request carrying the correct secret as
`Authorization: Bearer test_api_key_12345` — exactly what the
repository's own integration tests send — is rejected with
`PermissionError`, while the plain header is accepted, and a rejected
request makes no append. -/
theorem c9_bearer_rejected :
    check_auth (some "test_api_key_12345")
        [("Authorization", "Bearer test_api_key_12345")] =
      AuthResult.headerMissing ∧
    ingest (some "test_api_key_12345")
        [("Authorization", "Bearer test_api_key_12345")] true =
      Except.error AuthResult.headerMissing ∧
    check_auth (some "test_api_key_12345")
        [("X-Pulse-API-Key", "test_api_key_12345")] = AuthResult.ok ∧
    check_auth (some "test_api_key_12345")
        [("X-Pulse-API-Key", "wrong")] = AuthResult.invalidKey := by
  exact ⟨rfl, rfl, rfl, rfl⟩

/-! ## Claims about the consumer-group read -/

/-- Claim C5, counterexample.  The pending phase raises while the
new-delivery phase would return an entry: `read` returns `[]`, not the
concatenation `[] ++ [] ++ [entry]` the claim requires, because the
single `try` block aborts the remaining phases on the first failure. -/
theorem c5_counterexample :
    stream_read (fun _ => Except.error ()) (fun _ => Except.ok [])
        (fun _ => Except.ok [{ id := "3-1", data := some [("name", "n")] }]) 10 =
      [] ∧
    ([] : List RawEvent) ≠
      [] ++ [] ++ [{ id := "3-1", data := some [("name", "n")] }] := by
  exact ⟨rfl, by decide⟩

/-- Claim C5 (amended): `read(count)` returns at most `count` entries
(provided each redis call returns at most what it asks for), obtained
by the three phases in order — pending reclaim, stale claim, new
delivery — each next phase asked only for the remainder and skipped
once the count is met; the result is the concatenation of the phases
that completed, and a failure in any phase is caught but aborts the
remaining phases, returning only the entries collected before it. -/
theorem c5_read_phase_characterization
    (pending stale new_phase : Nat → Except Unit (List RawEvent)) (count : Nat)
    (hp : ∀ k l, pending k = Except.ok l → l.length ≤ k)
    (hs : ∀ k l, stale k = Except.ok l → l.length ≤ k)
    (hn : ∀ k l, new_phase k = Except.ok l → l.length ≤ k) :
    (stream_read pending stale new_phase count).length ≤ count ∧
    (pending count = Except.error () →
      stream_read pending stale new_phase count = []) ∧
    (∀ l1, pending count = Except.ok l1 → count ≤ l1.length →
      stream_read pending stale new_phase count = l1) ∧
    (∀ l1, pending count = Except.ok l1 → l1.length < count →
      stale (count - l1.length) = Except.error () →
      stream_read pending stale new_phase count = l1) ∧
    (∀ l1 l2, pending count = Except.ok l1 → l1.length < count →
      stale (count - l1.length) = Except.ok l2 →
      count ≤ l1.length + l2.length →
      stream_read pending stale new_phase count = l1 ++ l2) ∧
    (∀ l1 l2, pending count = Except.ok l1 → l1.length < count →
      stale (count - l1.length) = Except.ok l2 →
      l1.length + l2.length < count →
      new_phase (count - (l1.length + l2.length)) = Except.error () →
      stream_read pending stale new_phase count = l1 ++ l2) ∧
    (∀ l1 l2 l3, pending count = Except.ok l1 → l1.length < count →
      stale (count - l1.length) = Except.ok l2 →
      l1.length + l2.length < count →
      new_phase (count - (l1.length + l2.length)) = Except.ok l3 →
      stream_read pending stale new_phase count = l1 ++ l2 ++ l3) := by
  refine ⟨?_, ?_, ?_, ?_, ?_, ?_, ?_⟩
  · unfold stream_read
    cases hp1 : pending count with
    | error e => simp
    | ok l1 =>
      have h1 := hp count l1 hp1
      by_cases hlt1 : l1.length < count
      · simp only [hlt1, if_true]
        cases hs1 : stale (count - l1.length) with
        | error e => exact h1
        | ok l2 =>
          have h2 := hs (count - l1.length) l2 hs1
          by_cases hlt2 : (l1 ++ l2).length < count
          · simp only [hlt2, if_true]
            cases hn1 : new_phase (count - (l1 ++ l2).length) with
            | error e => exact hlt2.le
            | ok l3 =>
              have h3 := hn (count - (l1 ++ l2).length) l3 hn1
              simp only [List.length_append] at *
              omega
          · simp only [hlt2, if_false]
            simp only [List.length_append] at hlt2 ⊢
            omega
      · simp only [hlt1, if_false]
        omega
  · intro h
    unfold stream_read
    rw [h]
  · intro l1 h1 hge
    unfold stream_read
    rw [h1]
    simp [Nat.not_lt.mpr hge]
  · intro l1 h1 hlt h2
    unfold stream_read
    rw [h1]
    simp only [hlt, if_true]
    rw [h2]
  · intro l1 l2 h1 hlt h2 hge
    unfold stream_read
    rw [h1]
    simp only [hlt, if_true]
    rw [h2]
    have hnlt : ¬ (l1 ++ l2).length < count := by
      simp only [List.length_append]
      omega
    simp [hnlt]
    exact fun hcon => absurd hcon (by omega)
  · intro l1 l2 h1 hlt1 h2 hlt2 h3
    unfold stream_read
    rw [h1]
    simp only [hlt1, if_true]
    rw [h2]
    have h2l : (l1 ++ l2).length < count := by
      simp only [List.length_append]
      omega
    simp only [h2l, if_true]
    have : count - (l1 ++ l2).length = count - (l1.length + l2.length) := by
      simp [List.length_append]
    rw [this, h3]
  · intro l1 l2 l3 h1 hlt1 h2 hlt2 h3
    unfold stream_read
    rw [h1]
    simp only [hlt1, if_true]
    rw [h2]
    have h2l : (l1 ++ l2).length < count := by
      simp only [List.length_append]
      omega
    simp only [h2l, if_true]
    have : count - (l1 ++ l2).length = count - (l1.length + l2.length) := by
      simp [List.length_append]
    rw [this, h3]

/-- Claim C5 witness: three successful phases on a small count
concatenate and respect the bound. -/
theorem c5_read_witness :
    stream_read (fun _ => Except.ok [])
        (fun k => Except.ok (List.take k [{ id := "3-2", data := some [] }]))
        (fun _ => Except.ok []) 5 =
      [] ++ [{ id := "3-2", data := some [] }] ++ [] := by
  refine (c5_read_phase_characterization (fun _ => Except.ok [])
      (fun k => Except.ok (List.take k [{ id := "3-2", data := some [] }]))
      (fun _ => Except.ok []) 5 ?_ ?_ ?_).2.2.2.2.2.2
      [] [{ id := "3-2", data := some [] }] [] rfl (by decide) rfl (by decide) rfl
  · intro k l h
    injection h with h2
    subst h2
    simp
  · intro k l h
    injection h with h2
    subst h2
    simp [List.length_take]
  · intro k l h
    injection h with h2
    subst h2
    simp

/-! ## Claims about the warehouse sync -/

/-- Primary-key membership distributes over table append. -/
theorem pk_in_target_append (t u : List SrcRow) (p : String) :
    pk_in_target (t ++ u) p = (pk_in_target t p || pk_in_target u p) := by
  simp [pk_in_target, List.any_append]

/-- Every row of a batch has its primary key in the target right after
`_insert_batch` (it was either already present or freshly inserted). -/
theorem insert_batch_covers (s : SyncState) (batch : List SrcRow) :
    ∀ r ∈ batch, pk_in_target (insert_batch s batch).target r.pk = true := by
  intro r hr
  show pk_in_target (s.target ++ batch.filter
      (fun q => !(pk_in_target s.target q.pk))) r.pk = true
  rw [pk_in_target_append, Bool.or_eq_true]
  by_cases h : pk_in_target s.target r.pk = true
  · exact Or.inl h
  · refine Or.inr ?_
    rw [pk_in_target, List.any_eq_true]
    refine ⟨r, List.mem_filter.mpr ⟨hr, ?_⟩, by simp⟩
    simp [h]

/-- Whatever primary key is in the target before the drain loop is
still there after it: `_insert_batch` only appends rows. -/
theorem sync_loop_target_grows (source : List SrcRow) (batch_size : Nat) :
    ∀ fuel s p, pk_in_target s.target p = true →
      pk_in_target (sync_loop source batch_size fuel s).target p = true := by
  intro fuel
  induction fuel with
  | zero => exact fun s p h => h
  | succ n ih =>
    intro s p h
    unfold sync_loop
    by_cases hb : (get_etl_batch source s.checkpoint batch_size).isEmpty
    · simpa [hb] using h
    · simp only [hb, if_false]
      have hgrow : pk_in_target
          (insert_batch s (get_etl_batch source s.checkpoint batch_size)).target
          p = true := by
        show pk_in_target (s.target ++ _) p = true
        rw [pk_in_target_append, h, Bool.true_or]
      by_cases hlen :
          (get_etl_batch source s.checkpoint batch_size).length < batch_size
      · simpa [hlen] using hgrow
      · simp only [hlen, if_false]
        exact ih _ p hgrow

/-- Re-running the drain loop against a target that already contains
every primary key the first run left behind inserts nothing: the target
and counter are unchanged and the checkpoint follows the first run
batch for batch. -/
theorem sync_loop_second_run (source : List SrcRow) (batch_size : Nat) :
    ∀ fuel cp tgtA tgtB totA totB,
      (∀ p, pk_in_target (sync_loop source batch_size fuel
          { target := tgtA, checkpoint := cp, total_inserted := totA }).target
            p = true →
        pk_in_target tgtB p = true) →
      sync_loop source batch_size fuel
          { target := tgtB, checkpoint := cp, total_inserted := totB } =
        { target := tgtB,
          checkpoint := (sync_loop source batch_size fuel
            { target := tgtA, checkpoint := cp, total_inserted := totA }).checkpoint,
          total_inserted := totB } := by
  intro fuel
  induction fuel with
  | zero => exact fun cp tgtA tgtB totA totB _ => rfl
  | succ n ih =>
    intro cp tgtA tgtB totA totB hsub
    by_cases hb : (get_etl_batch source cp batch_size).isEmpty
    · unfold sync_loop
      simp [hb]
    · have hcover : ∀ r ∈ get_etl_batch source cp batch_size,
          pk_in_target tgtB r.pk = true := by
        intro r hr
        apply hsub
        have hc1 := insert_batch_covers
          { target := tgtA, checkpoint := cp, total_inserted := totA }
          (get_etl_batch source cp batch_size) r hr
        unfold sync_loop
        simp only [hb, if_false]
        by_cases hlen :
            (get_etl_batch source cp batch_size).length < batch_size
        · simpa [hlen] using hc1
        · simp only [hlen, if_false]
          exact sync_loop_target_grows source batch_size n _ r.pk hc1
      have hdiff : (get_etl_batch source cp batch_size).filter
          (fun q => !(pk_in_target tgtB q.pk)) = [] := by
        rw [List.filter_eq_nil_iff]
        intro r hr
        simp [hcover r hr]
      have hins : insert_batch
          { target := tgtB, checkpoint := cp, total_inserted := totB }
          (get_etl_batch source cp batch_size) =
          { target := tgtB,
            checkpoint := some (maxCreation (get_etl_batch source cp batch_size)),
            total_inserted := totB } := by
        simp [insert_batch, hdiff]
      by_cases hlen : (get_etl_batch source cp batch_size).length < batch_size
      · unfold sync_loop
        rw [if_neg hb, if_neg hb, if_pos hlen, if_pos hlen, hins]
        rfl
      · unfold sync_loop
        rw [if_neg hb, if_neg hb, if_neg hlen, if_neg hlen, hins]
        exact ih (some (maxCreation (get_etl_batch source cp batch_size)))
          (tgtA ++ (get_etl_batch source cp batch_size).filter
            (fun q => !(pk_in_target tgtA q.pk)))
          tgtB
          (totA + ((get_etl_batch source cp batch_size).filter
            (fun q => !(pk_in_target tgtA q.pk))).length)
          totB
          (by
            intro p hp
            apply hsub
            unfold sync_loop
            rw [if_neg hb, if_neg hlen]
            exact hp)

/-- Claim C3: the warehouse drain loop is idempotent.  Running the loop
a second time from the same checkpoint against the table the first run
produced re-fetches the same batches, the anti-join on the primary key
excludes every row whose key already exists in the target, so the
second run inserts zero rows and leaves the target unchanged (and an
already-present primary key is never among the rows a batch insert
appends). -/
theorem c3_sync_idempotent (source : List SrcRow) (batch_size fuel : Nat)
    (checkpoint : Option Nat) (target : List SrcRow) :
    (run_sync source batch_size fuel checkpoint
        (run_sync source batch_size fuel checkpoint target).target).target =
      (run_sync source batch_size fuel checkpoint target).target ∧
    (run_sync source batch_size fuel checkpoint
        (run_sync source batch_size fuel checkpoint target).target).total_inserted
      = 0 ∧
    (∀ s batch (r : SrcRow), r ∈ batch → pk_in_target s.target r.pk = true →
      r ∉ (insert_batch s batch).target.drop s.target.length) := by
  have hrun := sync_loop_second_run source batch_size fuel checkpoint
    target
    (run_sync source batch_size fuel checkpoint target).target
    0 0 (fun p h => h)
  refine ⟨?_, ?_, ?_⟩
  · show (sync_loop source batch_size fuel _).target = _
    rw [hrun]
  · show (sync_loop source batch_size fuel _).total_inserted = 0
    rw [hrun]
  · intro s batch r hr hpk hmem
    have hdrop : (insert_batch s batch).target.drop s.target.length =
        batch.filter (fun q => !(pk_in_target s.target q.pk)) := by
      show (s.target ++ _).drop s.target.length = _
      exact List.drop_left _ _
    rw [hdrop] at hmem
    have := (List.mem_filter.mp hmem).2
    simp [hpk] at this

/-- Claim C3 witness: a three-row source synced twice from an empty
target; the anti-join conjunct applied to a concrete duplicate. -/
theorem c3_sync_idempotent_witness :
    (run_sync [⟨"a", 1, "pa"⟩, ⟨"b", 2, "pb"⟩] 2 5 Option.none
        (run_sync [⟨"a", 1, "pa"⟩, ⟨"b", 2, "pb"⟩] 2 5 Option.none
          []).target).total_inserted = 0 ∧
    (⟨"a", 1, "pa"⟩ : SrcRow) ∉
      (insert_batch (SyncState.mk [⟨"a", 1, "pa"⟩] Option.none 0)
        [⟨"a", 1, "pa"⟩]).target.drop 1 := by
  refine ⟨(c3_sync_idempotent
    [⟨"a", 1, "pa"⟩, ⟨"b", 2, "pb"⟩] 2 5 Option.none []).2.1, ?_⟩
  exact (c3_sync_idempotent
      [⟨"a", 1, "pa"⟩, ⟨"b", 2, "pb"⟩] 2 5 Option.none []).2.2
    (SyncState.mk [⟨"a", 1, "pa"⟩] Option.none 0)
    [⟨"a", 1, "pa"⟩] ⟨"a", 1, "pa"⟩ (by decide) (by decide)

/-- Ordering on checkpoint values: an unset checkpoint precedes
everything; a set checkpoint never becomes unset and never decreases. -/
def cpLE : Option Nat → Option Nat → Prop
  | Option.none, _ => True
  | some _, Option.none => False
  | some c, some d => c ≤ d

/-- Reflexivity of the checkpoint order. -/
theorem cpLE_refl (o : Option Nat) : cpLE o o := by
  cases o with
  | none => trivial
  | some c => exact Nat.le_refl c

/-- Transitivity of the checkpoint order. -/
theorem cpLE_trans {a b c : Option Nat} (h1 : cpLE a b) (h2 : cpLE b c) :
    cpLE a c := by
  cases a with
  | none => trivial
  | some x =>
    cases b with
    | none => exact absurd h1 (by simp [cpLE])
    | some y =>
      cases c with
      | none => exact absurd h2 (by simp [cpLE])
      | some z => exact Nat.le_trans h1 h2

/-- A fold of `max` over row creations dominates its initial value. -/
theorem foldl_max_init_le (l : List SrcRow) :
    ∀ a : Nat, a ≤ l.foldl (fun m r => max m r.creation) a := by
  induction l with
  | nil => exact fun a => Nat.le_refl a
  | cons x t ih =>
    intro a
    exact Nat.le_trans (Nat.le_max_left a x.creation) (ih (max a x.creation))

/-- Every member creation is below the fold of `max`. -/
theorem mem_le_foldl_max (l : List SrcRow) :
    ∀ (a : Nat) (r : SrcRow), r ∈ l →
      r.creation ≤ l.foldl (fun m x => max m x.creation) a := by
  induction l with
  | nil => intro a r hr; cases hr
  | cons x t ih =>
    intro a r hr
    rcases List.mem_cons.mp hr with h | h
    · rw [h]
      exact Nat.le_trans (Nat.le_max_right a x.creation)
        (foldl_max_init_le t (max a x.creation))
    · exact ih (max a x.creation) r h

/-- Every row of a batch has creation at most the batch maximum. -/
theorem le_maxCreation (batch : List SrcRow) (r : SrcRow) (hr : r ∈ batch) :
    r.creation ≤ maxCreation batch :=
  mem_le_foldl_max batch 0 r hr

/-- Rows fetched by the row-store branch with a set checkpoint lie
strictly above it. -/
theorem get_etl_batch_after (source : List SrcRow) (c : Nat) (batch_size : Nat)
    (r : SrcRow) (hr : r ∈ get_etl_batch source (some c) batch_size) :
    c < r.creation := by
  have hsort : r ∈ (source.filter
      (fun q => decide (c < q.creation))).mergeSort rowLE :=
    (List.take_sublist _ _).subset hr
  have hfil : r ∈ source.filter (fun q => decide (c < q.creation)) :=
    (List.mergeSort_perm _ rowLE).subset hsort
  have := (List.mem_filter.mp hfil).2
  simpa using this

/-- Rows fetched by the stream-backed virtual branch with a set
checkpoint lie at or above it: the XRANGE `min` bound is inclusive. -/
theorem get_etl_batch_virtual_after (stream : List SrcRow) (c : Nat)
    (batch_size : Nat) (r : SrcRow)
    (hr : r ∈ get_etl_batch_virtual stream (some c) batch_size) :
    c ≤ r.creation := by
  have hfil : r ∈ stream.filter (fun q => decide (c ≤ q.creation)) :=
    (List.take_sublist _ _).subset hr
  have := (List.mem_filter.mp hfil).2
  simpa using this

/-- The row order is transitive. -/
theorem rowLE_trans (a b c : SrcRow) (h1 : rowLE a b = true)
    (h2 : rowLE b c = true) : rowLE a c = true := by
  simp only [rowLE, Bool.or_eq_true, Bool.and_eq_true, decide_eq_true_eq] at *
  rcases h1 with h1 | ⟨h1e, h1p⟩ <;> rcases h2 with h2 | ⟨h2e, h2p⟩
  · exact Or.inl (Nat.lt_trans h1 h2)
  · exact Or.inl (h2e ▸ h1)
  · exact Or.inl (h1e ▸ h2)
  · exact Or.inr ⟨h1e.trans h2e, le_trans h1p h2p⟩

/-- The row order is total. -/
theorem rowLE_total (a b : SrcRow) : (rowLE a b || rowLE b a) = true := by
  simp only [rowLE, Bool.or_eq_true, Bool.and_eq_true, decide_eq_true_eq]
  rcases Nat.lt_trichotomy a.creation b.creation with h | h | h
  · exact Or.inl (Or.inl h)
  · rcases le_total a.pk b.pk with hp | hp
    · exact Or.inl (Or.inr ⟨h, hp⟩)
    · exact Or.inr (Or.inr ⟨h.symm, hp⟩)
  · exact Or.inr (Or.inl h)

/-- The row-store fetch is sorted by `(creation, name)` ascending. -/
theorem get_etl_batch_sorted (source : List SrcRow) (batch_size : Nat)
    (cp : Option Nat) :
    List.Pairwise (fun a b => rowLE a b = true)
      (get_etl_batch source cp batch_size) := by
  have hsorted := @List.sorted_mergeSort SrcRow rowLE
    rowLE_trans rowLE_total
    (match cp with
      | some c => source.filter (fun q => decide (c < q.creation))
      | Option.none => source)
  exact List.Pairwise.sublist (List.take_sublist _ _) hsorted

/-- The stream-backed fetch keeps entry-id order: when the stream is in
ascending order, so is every fetched batch. -/
theorem get_etl_batch_virtual_sorted (stream : List SrcRow) (batch_size : Nat)
    (cp : Option Nat)
    (hs : List.Pairwise (fun a b => rowLE a b = true) stream) :
    List.Pairwise (fun a b => rowLE a b = true)
      (get_etl_batch_virtual stream cp batch_size) := by
  have hfil : List.Pairwise (fun a b => rowLE a b = true)
      (match cp with
        | some c => stream.filter (fun r => decide (c ≤ r.creation))
        | Option.none => stream) := by
    cases cp with
    | none => exact hs
    | some c => exact hs.filter _
  exact List.Pairwise.sublist (List.take_sublist _ _) hfil

/-- The drain loop never moves the checkpoint down. -/
theorem sync_loop_checkpoint_mono (source : List SrcRow) (batch_size : Nat) :
    ∀ fuel s, cpLE s.checkpoint (sync_loop source batch_size fuel s).checkpoint := by
  intro fuel
  induction fuel with
  | zero => exact fun s => cpLE_refl _
  | succ n ih =>
    intro s
    unfold sync_loop
    by_cases hb : (get_etl_batch source s.checkpoint batch_size).isEmpty
    · rw [if_pos hb]
      exact cpLE_refl _
    · rw [if_neg hb]
      have hstep : cpLE s.checkpoint
          (some (maxCreation (get_etl_batch source s.checkpoint batch_size))) := by
        cases hcp : s.checkpoint with
        | none => trivial
        | some c =>
          obtain ⟨r, hr⟩ : ∃ r, r ∈ get_etl_batch source (some c) batch_size := by
            cases hcase : get_etl_batch source (some c) batch_size with
            | nil =>
              rw [hcp, hcase] at hb
              exact absurd rfl hb
            | cons x t => exact ⟨x, List.mem_cons_self x t⟩
          have h1 := get_etl_batch_after source c batch_size r hr
          have h2 := le_maxCreation (get_etl_batch source (some c) batch_size) r hr
          show c ≤ _
          exact Nat.le_trans (Nat.le_of_lt h1) h2
      by_cases hlen :
          (get_etl_batch source s.checkpoint batch_size).length < batch_size
      · rw [if_pos hlen]
        exact hstep
      · rw [if_neg hlen]
        exact cpLE_trans hstep (ih (insert_batch s _))

/-- The drain loop driven by the inclusive stream-backed fetch never
moves the checkpoint down either: every fetched row lies at or above a
set checkpoint, so the batch maximum does too. -/
theorem sync_loop_virtual_checkpoint_mono (source : List SrcRow)
    (batch_size : Nat) :
    ∀ fuel s, cpLE s.checkpoint
      (sync_loop_virtual source batch_size fuel s).checkpoint := by
  intro fuel
  induction fuel with
  | zero => exact fun s => cpLE_refl _
  | succ n ih =>
    intro s
    unfold sync_loop_virtual
    by_cases hb : (get_etl_batch_virtual source s.checkpoint batch_size).isEmpty
    · rw [if_pos hb]
      exact cpLE_refl _
    · rw [if_neg hb]
      have hstep : cpLE s.checkpoint
          (some (maxCreation
            (get_etl_batch_virtual source s.checkpoint batch_size))) := by
        cases hcp : s.checkpoint with
        | none => trivial
        | some c =>
          obtain ⟨r, hr⟩ :
              ∃ r, r ∈ get_etl_batch_virtual source (some c) batch_size := by
            cases hcase : get_etl_batch_virtual source (some c) batch_size with
            | nil =>
              rw [hcp, hcase] at hb
              exact absurd rfl hb
            | cons x t => exact ⟨x, List.mem_cons_self x t⟩
          have h1 := get_etl_batch_virtual_after source c batch_size r hr
          have h2 := le_maxCreation
            (get_etl_batch_virtual source (some c) batch_size) r hr
          show c ≤ _
          exact Nat.le_trans h1 h2
      by_cases hlen :
          (get_etl_batch_virtual source s.checkpoint batch_size).length < batch_size
      · rw [if_pos hlen]
        exact hstep
      · rw [if_neg hlen]
        exact cpLE_trans hstep (ih (insert_batch s _))

/-- Claim C4, counterexample.  The claim asserts every batch is fetched
with `creation_key` strictly greater than the stored checkpoint, but
the virtual-doctype branch of `get_etl_batch` — the stream-backed
`Pulse Event` source — fetches with XRANGE `min_id = checkpoint`,
which is inclusive: with the checkpoint at 5, the entry whose creation
key is exactly 5 is fetched again. -/
theorem c4_counterexample :
    get_etl_batch_virtual [⟨"5-0", 5, "p"⟩] (some 5) 10 = [⟨"5-0", 5, "p"⟩] ∧
    ¬ 5 < (⟨"5-0", 5, "p"⟩ : SrcRow).creation := by
  exact ⟨rfl, by decide⟩

/-- Claim C4 (amended): checkpoint discipline of the warehouse sync.
Batches arrive in ascending `(creation_key, primary_key)` order (the
stream branch keeps id order provided the stream is id-ordered), at
most `batch_size` rows; the row-store branch fetches strictly above
the stored checkpoint while the stream-backed virtual branch (`Pulse
Event`) fetches inclusively, at or above it; the state that carries
the advanced checkpoint (the batch maximum of the creation key)
already contains every batch row in its target, so the checkpoint is
advanced only after the batch holding its maximum creation has been
inserted; and under either fetch the checkpoint never decreases,
within a run and across two consecutive runs. -/
theorem c4_checkpoint_discipline (source : List SrcRow) (batch_size : Nat) :
    (∀ c r, r ∈ get_etl_batch source (some c) batch_size → c < r.creation) ∧
    (∀ c r, r ∈ get_etl_batch_virtual source (some c) batch_size →
      c ≤ r.creation) ∧
    (∀ cp, List.Pairwise (fun a b => rowLE a b = true)
      (get_etl_batch source cp batch_size)) ∧
    (List.Pairwise (fun a b => rowLE a b = true) source →
      ∀ v cp, List.Pairwise (fun a b => rowLE a b = true)
        (get_etl_batch_dispatch v source cp batch_size)) ∧
    (∀ v cp, (get_etl_batch_dispatch v source cp batch_size).length ≤ batch_size) ∧
    (∀ s batch, batch ≠ [] →
      (insert_batch s batch).checkpoint = some (maxCreation batch) ∧
      ∀ r ∈ batch, pk_in_target (insert_batch s batch).target r.pk = true ∧
        r.creation ≤ maxCreation batch) ∧
    (∀ fuel s, cpLE s.checkpoint
      (sync_loop source batch_size fuel s).checkpoint) ∧
    (∀ fuel s, cpLE s.checkpoint
      (sync_loop_virtual source batch_size fuel s).checkpoint) ∧
    (∀ fuel1 fuel2 cp tgt1 tgt2, cpLE cp
      (sync_loop source batch_size fuel2
        { target := tgt2,
          checkpoint := (run_sync source batch_size fuel1 cp tgt1).checkpoint,
          total_inserted := 0 }).checkpoint) ∧
    (∀ fuel1 fuel2 cp tgt1 tgt2, cpLE cp
      (sync_loop_virtual source batch_size fuel2
        { target := tgt2,
          checkpoint := (sync_loop_virtual source batch_size fuel1
            { target := tgt1, checkpoint := cp,
              total_inserted := 0 }).checkpoint,
          total_inserted := 0 }).checkpoint) := by
  refine ⟨fun c r hr => get_etl_batch_after source c batch_size r hr,
    fun c r hr => get_etl_batch_virtual_after source c batch_size r hr,
    get_etl_batch_sorted source batch_size, ?_, ?_, ?_,
    sync_loop_checkpoint_mono source batch_size,
    sync_loop_virtual_checkpoint_mono source batch_size, ?_, ?_⟩
  · intro hsrc v cp
    cases v with
    | false =>
      simpa [get_etl_batch_dispatch] using
        get_etl_batch_sorted source batch_size cp
    | true =>
      simpa [get_etl_batch_dispatch] using
        get_etl_batch_virtual_sorted source batch_size cp hsrc
  · intro v cp
    cases v with
    | false => exact List.length_take_le _ _
    | true => exact List.length_take_le _ _
  · intro s batch hne
    refine ⟨rfl, ?_⟩
    intro r hr
    exact ⟨insert_batch_covers s batch r hr, le_maxCreation batch r hr⟩
  · intro fuel1 fuel2 cp tgt1 tgt2
    have h1 := sync_loop_checkpoint_mono source batch_size fuel1
      { target := tgt1, checkpoint := cp, total_inserted := 0 }
    have h2 := sync_loop_checkpoint_mono source batch_size fuel2
      { target := tgt2,
        checkpoint := (run_sync source batch_size fuel1 cp tgt1).checkpoint,
        total_inserted := 0 }
    exact cpLE_trans h1 h2
  · intro fuel1 fuel2 cp tgt1 tgt2
    have h1 := sync_loop_virtual_checkpoint_mono source batch_size fuel1
      { target := tgt1, checkpoint := cp, total_inserted := 0 }
    have h2 := sync_loop_virtual_checkpoint_mono source batch_size fuel2
      { target := tgt2,
        checkpoint := (sync_loop_virtual source batch_size fuel1
          { target := tgt1, checkpoint := cp,
            total_inserted := 0 }).checkpoint,
        total_inserted := 0 }
    exact cpLE_trans h1 h2

/-- Claim C4 witness: fetch contracts of both branches, stream-order
preservation, and the checkpoint advance on a concrete two-row
source. -/
theorem c4_checkpoint_witness :
    (∀ r, r ∈ get_etl_batch [⟨"a", 1, "pa"⟩, ⟨"b", 2, "pb"⟩] (some 1) 10 →
      1 < r.creation) ∧
    (∀ r, r ∈ get_etl_batch_virtual [⟨"a", 1, "pa"⟩, ⟨"b", 2, "pb"⟩]
        (some 1) 10 → 1 ≤ r.creation) ∧
    List.Pairwise (fun a b => rowLE a b = true)
      (get_etl_batch_dispatch true [⟨"a", 1, "pa"⟩, ⟨"b", 2, "pb"⟩]
        (some 1) 10) ∧
    (insert_batch (SyncState.mk [] (some 1) 0) [⟨"b", 2, "pb"⟩]).checkpoint =
      some 2 := by
  refine ⟨(c4_checkpoint_discipline [⟨"a", 1, "pa"⟩, ⟨"b", 2, "pb"⟩] 10).1 1,
    (c4_checkpoint_discipline [⟨"a", 1, "pa"⟩, ⟨"b", 2, "pb"⟩] 10).2.1 1,
    (c4_checkpoint_discipline [⟨"a", 1, "pa"⟩, ⟨"b", 2, "pb"⟩] 10).2.2.2.1
      (by decide) true (some 1), ?_⟩
  have h := ((c4_checkpoint_discipline [⟨"a", 1, "pa"⟩, ⟨"b", 2, "pb"⟩] 10).2.2.2.2.2.1
    (SyncState.mk [] (some 1) 0) [⟨"b", 2, "pb"⟩] (by decide)).1
  rw [h]
  rfl

end Pulse
